import Mathlib

/-!
Shallow embedding of the market-data module in src/api/fmp.js, together with
proofs about its stated properties.

JavaScript effects are made explicit in the embedding:
- a JS exception escaping a piece of code is modelled by Except JsError;
- a null / absent result is modelled by Option;
- the HTTP transport, the JSON parser of the response object and the built-in
  Date conversion are external collaborators, so they enter the model through
  their observable outcomes (success value or thrown error), over which the
  theorems quantify.
-/

/-- Kinds of JS exceptions that can arise inside the module: property access on
a nullish value, an invalid Date passed to the ISO conversion, a rejected
fetch, and a failed JSON parse of the response body. -/
inductive JsError where
  | typeError
  | rangeError
  | fetchFailed
  | parseFailed
  deriving DecidableEq, Repr

/-- A JS array element as seen by a callback: either a proper object, or a
nullish value (null / undefined) on which any property access throws. -/
inductive RawElem (α : Type) where
  | obj (a : α)
  | nullish
  deriving DecidableEq, Repr

/-- A successfully parsed JSON response body: either a JS array of elements or
some non-array value (Array.isArray is false on it). -/
inductive JsonBody (α : Type) where
  | arr (data : List (RawElem α))
  | nonArray
  deriving DecidableEq, Repr

/-- Observable outcome of `await fetch(url)` followed by `response.json()`:
the fetch itself may reject (transport failure), or it yields a response with
an `ok` flag and a status, whose `json()` either throws (`none`) or parses to
a body (`some`). -/
inductive FetchOutcome (α : Type) where
  | netError
  | response (ok : Bool) (status : Nat) (json : Option (JsonBody α))
  deriving DecidableEq, Repr

/-- The fixed `INDICES` object of the module, as an insertion-ordered list of
key / value pairs. -/
def INDICES : List (String × String) :=
  [("SP500", "^GSPC"), ("NASDAQ", "^IXIC"), ("DOW", "^DJI"),
   ("VIX", "^VIX"), ("US10Y", "^TNX")]

/-- The helper `getKeyByValue(object, value)`:
`Object.keys(object).find(key => object[key] === value)`, that is the first
key (in insertion order) whose value strictly equals `value`; `none` models
the `undefined` result of `find`. -/
def getKeyByValue (object : List (String × String)) (value : String) :
    Option String :=
  (object.find? (fun p => p.2 == value)).map Prod.fst

/-- A raw quote element of the provider response. Numeric fields are copied
verbatim by the module (no arithmetic is performed on them), so their carrier
type is opaque; `Int` stands for the JS number payload. The `timestamp` field
is represented by the observable outcome of `new Date(timestamp).toISOString()`
on it: `some s` when the conversion yields the ISO string `s`, `none` when the
Date is invalid (for example a missing or unparseable field) and
`toISOString` throws a RangeError. -/
structure RawQuote where
  symbol : String
  price : Int
  change : Int
  changesPercentage : Int
  dayLow : Int
  dayHigh : Int
  volume : Int
  timestamp : Option String
  deriving DecidableEq, Repr

/-- One structured quote, as built inside `fetchIndexQuotes`. -/
structure QuoteRecord where
  symbol : String
  price : Int
  change : Int
  changePercent : Int
  dayLow : Int
  dayHigh : Int
  volume : Int
  timestamp : String
  deriving DecidableEq, Repr

/-- The `quotes` JS object: string keys mapping to quote records, kept in
insertion order. -/
abbrev QuotesMap := List (String × QuoteRecord)

/-- Assignment `quotes[key] = v` on a JS object: if the key is already present
its value is replaced in place (key order preserved), otherwise the pair is
appended in insertion order. -/
def setKey : QuotesMap → String → QuoteRecord → QuotesMap
  | [], k, v => [(k, v)]
  | (k', v') :: rest, k, v =>
    if k' = k then (k, v) :: rest else (k', v') :: setKey rest k v

/-- Property read `m[k]` on the quotes object: the value stored at key `k`,
`none` when the key is absent. -/
def getProp : QuotesMap → String → Option QuoteRecord
  | [], _ => none
  | (k', v) :: rest, k => if k' = k then some v else getProp rest k

/-- The quote record literal built inside the `forEach` callback for a matched
raw quote whose timestamp converted to the ISO string `iso`. -/
def mkQuoteRecord (q : RawQuote) (iso : String) : QuoteRecord :=
  { symbol := q.symbol, price := q.price, change := q.change,
    changePercent := q.changesPercentage, dayLow := q.dayLow,
    dayHigh := q.dayHigh, volume := q.volume, timestamp := iso }

/-- The `data.forEach(quote => ...)` loop of `fetchIndexQuotes`, building the
`quotes` object. A JS throw escaping the loop is modelled by `Except.error`:
property access on a nullish element throws a TypeError, and `toISOString` on
an invalid Date throws a RangeError. Records whose symbol resolves to no key
are skipped; for matched records the record literal (including the Date
conversion) is evaluated and assigned. -/
def processQuotes : List (RawElem RawQuote) → QuotesMap →
    Except JsError QuotesMap
  | [], quotes => .ok quotes
  | .nullish :: _, _ => .error .typeError
  | .obj q :: rest, quotes =>
    match getKeyByValue INDICES q.symbol with
    | none => processQuotes rest quotes
    | some key =>
      match q.timestamp with
      | none => .error .rangeError
      | some iso => processQuotes rest (setKey quotes key (mkQuoteRecord q iso))

/-- A raw array element that makes the `forEach` callback throw after a key
match: a proper object whose symbol resolves to a known key but whose
timestamp does not convert (so `toISOString` raises). -/
def badMatched : RawElem RawQuote → Prop
  | .obj q => getKeyByValue INDICES q.symbol ≠ none ∧ q.timestamp = none
  | .nullish => False

instance : DecidablePred badMatched := fun e =>
  match e with
  | .obj q =>
    inferInstanceAs (Decidable (getKeyByValue INDICES q.symbol ≠ none ∧
      q.timestamp = none))
  | .nullish => inferInstanceAs (Decidable False)

/-- Body of `fetchIndexQuotes` without its surrounding try / catch. A non-ok
response, a non-array body and an empty array all return null; a transport
failure, a JSON parse failure or a throw inside the `forEach` loop raise. -/
def fetchIndexQuotesBody (f : FetchOutcome RawQuote) :
    Except JsError (Option QuotesMap) :=
  match f with
  | .netError => .error .fetchFailed
  | .response ok _status json =>
    if !ok then .ok none
    else
      match json with
      | none => .error .parseFailed
      | some .nonArray => .ok none
      | some (.arr data) =>
        if data.length = 0 then .ok none
        else (processQuotes data []).map (fun quotes => some quotes)

/-- The function `fetchIndexQuotes`: its body wrapped in the try / catch that
converts any raised fault into null. -/
def fetchIndexQuotes (f : FetchOutcome RawQuote) : Option QuotesMap :=
  match fetchIndexQuotesBody f with
  | .ok r => r
  | .error _ => none

/-- A raw news article of the provider response. The `text` field is `none`
when absent (undefined, falsy); note that the empty string is also falsy in
JS. The other fields are copied verbatim. -/
structure RawArticle where
  title : String
  site : String
  publishedDate : String
  url : String
  text : Option String
  deriving DecidableEq, Repr

/-- One structured news item, as built inside `fetchMarketNews`. -/
structure NewsItem where
  title : String
  site : String
  publishedAt : String
  url : String
  summary : String
  deriving DecidableEq, Repr

/-- The article literal built inside the `map` callback of `fetchMarketNews`:
`summary` is `article.text ? article.text.substring(0, 200) + dots : empty`,
where the condition is JS truthiness of the `text` field. -/
def normalizeArticle (article : RawArticle) : NewsItem :=
  { title := article.title, site := article.site,
    publishedAt := article.publishedDate, url := article.url,
    summary :=
      match article.text with
      | none => ""
      | some t => if t = "" then "" else t.take 200 ++ "..." }

/-- The `.map(article => ...)` over the sliced article list. A nullish element
throws a TypeError that escapes the map (modelled by `Except.error`). -/
def processArticles : List (RawElem RawArticle) → Except JsError (List NewsItem)
  | [] => .ok []
  | .nullish :: _ => .error .typeError
  | .obj a :: rest =>
    (processArticles rest).map (fun items => normalizeArticle a :: items)

/-- Body of `fetchMarketNews` without its surrounding try / catch: non-ok
response, non-array body and empty array return null, otherwise the first 5
elements (`data.slice(0, 5)`) are mapped to structured news items. -/
def fetchMarketNewsBody (f : FetchOutcome RawArticle) :
    Except JsError (Option (List NewsItem)) :=
  match f with
  | .netError => .error .fetchFailed
  | .response ok _status json =>
    if !ok then .ok none
    else
      match json with
      | none => .error .parseFailed
      | some .nonArray => .ok none
      | some (.arr data) =>
        if data.length = 0 then .ok none
        else (processArticles (data.take 5)).map (fun items => some items)

/-- The function `fetchMarketNews`: its body wrapped in the try / catch that
converts any raised fault into null. -/
def fetchMarketNews (f : FetchOutcome RawArticle) : Option (List NewsItem) :=
  match fetchMarketNewsBody f with
  | .ok r => r
  | .error _ => none

/-- The `env` argument of `fetchMarketData`: either a nullish value (so that
reading `env.FMP_API_KEY` throws, caught by the top-level catch) or an object
whose `FMP_API_KEY` property is absent (`none`) or a string. -/
inductive EnvVal where
  | nullish
  | obj (FMP_API_KEY : Option String)
  deriving DecidableEq, Repr

/-- JS truthiness test `!apiKey` on the key property: true when the key is
absent (undefined) or the empty string. -/
def keyFalsy : Option String → Bool
  | none => true
  | some s => s = ""

/-- The external world one invocation of `fetchMarketData` runs against: the
outcome each of the two endpoints would yield if called, and the ISO string
`new Date().toISOString()` produces at assembly time. -/
structure World where
  quoteFetch : FetchOutcome RawQuote
  newsFetch : FetchOutcome RawArticle
  now : String
  deriving DecidableEq, Repr

/-- The structured result object of `fetchMarketData`. -/
structure MarketSnapshot where
  indices : QuotesMap
  news : Option (List NewsItem)
  timestamp : String
  deriving DecidableEq, Repr

/-- Label for one network call made by the module. -/
inductive NetCall where
  | quote
  | news
  deriving DecidableEq, Repr

/-- The function `fetchMarketData`, instrumented with the list of network
calls it performs, in order. A nullish `env` makes the property read throw;
the top-level catch turns that into null before any call. A falsy key returns
null with no call. A null quote phase returns null after the single quote
call, without attempting the news call; otherwise the news call is made and
the snapshot assembled with a fresh timestamp. -/
def fetchMarketDataT (env : EnvVal) (w : World) :
    Option MarketSnapshot × List NetCall :=
  match env with
  | .nullish => (none, [])
  | .obj apiKey =>
    if keyFalsy apiKey then (none, [])
    else
      match fetchIndexQuotes w.quoteFetch with
      | none => (none, [NetCall.quote])
      | some quotes =>
        (some { indices := quotes, news := fetchMarketNews w.newsFetch,
                timestamp := w.now },
         [NetCall.quote, NetCall.news])

/-- The exported function `fetchMarketData`: the caller sees only the
snapshot-or-null result. -/
def fetchMarketData (env : EnvVal) (w : World) : Option MarketSnapshot :=
  (fetchMarketDataT env w).1

/-! ### Helper lemmas about the quotes object -/

/-- Keys after a JS object assignment: the old keys plus the assigned key. -/
theorem setKey_keys (m : QuotesMap) (k : String) (v : QuoteRecord) (j : String) :
    j ∈ (setKey m k v).map Prod.fst ↔ j ∈ m.map Prod.fst ∨ j = k := by
  induction m with
  | nil => simp [setKey]
  | cons p rest ih =>
    obtain ⟨k', v'⟩ := p
    by_cases h : k' = k
    · subst h
      rw [setKey, if_pos rfl]
      simp only [List.map_cons, List.mem_cons]
      tauto
    · rw [setKey, if_neg h]
      simp only [List.map_cons, List.mem_cons]
      rw [ih]
      tauto

/-- Reading the assigned key back yields the assigned value. -/
theorem getProp_setKey_self (m : QuotesMap) (k : String) (v : QuoteRecord) :
    getProp (setKey m k v) k = some v := by
  induction m with
  | nil => simp [setKey, getProp]
  | cons p rest ih =>
    obtain ⟨k', v'⟩ := p
    by_cases h : k' = k
    · subst h
      simp [setKey, getProp]
    · simp [setKey, getProp, h, ih]

/-- Reading another key is unaffected by an assignment. -/
theorem getProp_setKey_other (m : QuotesMap) (k : String) (v : QuoteRecord)
    (j : String) (hj : j ≠ k) :
    getProp (setKey m k v) j = getProp m j := by
  induction m with
  | nil =>
    simp only [setKey, getProp]
    rw [if_neg (Ne.symm hj)]
  | cons p rest ih =>
    obtain ⟨k', v'⟩ := p
    by_cases h : k' = k
    · subst h
      rw [setKey, if_pos rfl]
      simp only [getProp]
      simp only [if_neg (Ne.symm hj)]
    · rw [setKey, if_neg h]
      simp only [getProp]
      by_cases h2 : k' = j
      · rw [if_pos h2, if_pos h2]
      · rw [if_neg h2, if_neg h2, ih]

/-! ### Helper lemmas about the two normalization loops -/

/-- The news map over proper article objects never throws and normalizes each
article in order. -/
theorem processArticles_objs (arts : List RawArticle) :
    processArticles (arts.map RawElem.obj) = .ok (arts.map normalizeArticle) := by
  induction arts with
  | nil => rfl
  | cons a rest ih => simp [processArticles, ih, Except.map]

/-- The quote loop skips every object record whose symbol matches no key,
leaving the accumulator unchanged. -/
theorem processQuotes_unmatched (arts : List RawQuote) (acc : QuotesMap)
    (h : ∀ q ∈ arts, getKeyByValue INDICES q.symbol = none) :
    processQuotes (arts.map RawElem.obj) acc = .ok acc := by
  induction arts with
  | nil => rfl
  | cons q rest ih =>
    have hq := h q (List.mem_cons_self q rest)
    simp only [List.map_cons, processQuotes, hq]
    exact ih (fun r hr => h r (List.mem_cons_of_mem q hr))

/-- If some element of the raw array is a matched record whose timestamp does
not convert, the quote loop raises (whatever else the array contains). -/
theorem processQuotes_error_of_bad (data : List (RawElem RawQuote))
    (acc : QuotesMap) (h : ∃ e ∈ data, badMatched e) :
    ∃ err, processQuotes data acc = .error err := by
  induction data generalizing acc with
  | nil => simp at h
  | cons e rest ih =>
    obtain ⟨e', he', hbad⟩ := h
    cases e with
    | nullish => exact ⟨.typeError, rfl⟩
    | obj q =>
      rcases List.mem_cons.mp he' with rfl | hmem
      · obtain ⟨hkey, hts⟩ := hbad
        obtain ⟨key, hk⟩ := Option.ne_none_iff_exists'.mp hkey
        simp only [processQuotes, hk, hts]
        exact ⟨.rangeError, rfl⟩
      · cases hk : getKeyByValue INDICES q.symbol with
        | none =>
          simpa only [processQuotes, hk] using ih acc ⟨e', hmem, hbad⟩
        | some key =>
          cases hts : q.timestamp with
          | none => exact ⟨.rangeError, by simp only [processQuotes, hk, hts]⟩
          | some iso =>
            simpa only [processQuotes, hk, hts] using
              ih (setKey acc key (mkQuoteRecord q iso)) ⟨e', hmem, hbad⟩

/-- The quote loop over a concatenation runs the first part and, if it did not
throw, continues on the second part from the intermediate object. -/
theorem processQuotes_append (l1 l2 : List (RawElem RawQuote)) (acc : QuotesMap) :
    processQuotes (l1 ++ l2) acc =
      match processQuotes l1 acc with
      | .ok m => processQuotes l2 m
      | .error err => .error err := by
  induction l1 generalizing acc with
  | nil => simp [processQuotes]
  | cons e rest ih =>
    cases e with
    | nullish => simp [processQuotes]
    | obj q =>
      cases hk : getKeyByValue INDICES q.symbol with
      | none => simp only [List.cons_append, processQuotes, hk, List.append_eq, ih]
      | some key =>
        cases hts : q.timestamp with
        | none => simp only [List.cons_append, processQuotes, hk, hts]
        | some iso =>
          simp only [List.cons_append, processQuotes, hk, hts, List.append_eq, ih]

/-- Over proper object records whose matched timestamps all convert, the quote
loop never throws, and the keys of the resulting object are the starting keys
together with exactly the matched identifiers. -/
theorem processQuotes_objs_keys (arts : List RawQuote) (acc : QuotesMap)
    (hts : ∀ q ∈ arts, getKeyByValue INDICES q.symbol ≠ none → q.timestamp ≠ none) :
    ∃ m, processQuotes (arts.map RawElem.obj) acc = .ok m ∧
      ∀ j, j ∈ m.map Prod.fst ↔
        j ∈ acc.map Prod.fst ∨ ∃ q ∈ arts, getKeyByValue INDICES q.symbol = some j := by
  induction arts generalizing acc with
  | nil => exact ⟨acc, rfl, by simp⟩
  | cons q rest ih =>
    have hrest : ∀ r ∈ rest, getKeyByValue INDICES r.symbol ≠ none → r.timestamp ≠ none :=
      fun r hr => hts r (List.mem_cons_of_mem q hr)
    cases hk : getKeyByValue INDICES q.symbol with
    | none =>
      obtain ⟨m, hm, hkeys⟩ := ih acc hrest
      refine ⟨m, by simp only [List.map_cons, processQuotes, hk, hm], fun j => ?_⟩
      rw [hkeys j]
      constructor
      · rintro (h | ⟨r, hr, hrj⟩)
        · exact Or.inl h
        · exact Or.inr ⟨r, List.mem_cons_of_mem q hr, hrj⟩
      · rintro (h | ⟨r, hr, hrj⟩)
        · exact Or.inl h
        · rcases List.mem_cons.mp hr with rfl | hr'
          · exact absurd hrj (by simp [hk])
          · exact Or.inr ⟨r, hr', hrj⟩
    | some key =>
      have hqts : q.timestamp ≠ none :=
        hts q (List.mem_cons_self q rest) (by simp [hk])
      obtain ⟨iso, hiso⟩ := Option.ne_none_iff_exists'.mp hqts
      obtain ⟨m, hm, hkeys⟩ := ih (setKey acc key (mkQuoteRecord q iso)) hrest
      refine ⟨m, by simp only [List.map_cons, processQuotes, hk, hiso, hm], fun j => ?_⟩
      rw [hkeys j, setKey_keys]
      constructor
      · rintro ((h | rfl) | ⟨r, hr, hrj⟩)
        · exact Or.inl h
        · exact Or.inr ⟨q, List.mem_cons_self q rest, hk⟩
        · exact Or.inr ⟨r, List.mem_cons_of_mem q hr, hrj⟩
      · rintro (h | ⟨r, hr, hrj⟩)
        · exact Or.inl (Or.inl h)
        · rcases List.mem_cons.mp hr with rfl | hr'
          · exact Or.inl (Or.inr (by rw [hk] at hrj; exact (Option.some_inj.mp hrj).symm))
          · exact Or.inr ⟨r, hr', hrj⟩

/-- Over proper object records none of which matches the key `k` (and whose
matched timestamps all convert), the quote loop never throws and leaves the
value stored at `k` unchanged. -/
theorem processQuotes_objs_nomatch (arts : List RawQuote) (acc : QuotesMap)
    (k : String)
    (hts : ∀ q ∈ arts, getKeyByValue INDICES q.symbol ≠ none → q.timestamp ≠ none)
    (hnm : ∀ q ∈ arts, getKeyByValue INDICES q.symbol ≠ some k) :
    ∃ m, processQuotes (arts.map RawElem.obj) acc = .ok m ∧
      getProp m k = getProp acc k := by
  induction arts generalizing acc with
  | nil => exact ⟨acc, rfl, rfl⟩
  | cons q rest ih =>
    have hrest : ∀ r ∈ rest, getKeyByValue INDICES r.symbol ≠ none → r.timestamp ≠ none :=
      fun r hr => hts r (List.mem_cons_of_mem q hr)
    have hnmrest : ∀ r ∈ rest, getKeyByValue INDICES r.symbol ≠ some k :=
      fun r hr => hnm r (List.mem_cons_of_mem q hr)
    cases hk : getKeyByValue INDICES q.symbol with
    | none =>
      obtain ⟨m, hm, hget⟩ := ih acc hrest hnmrest
      exact ⟨m, by simp only [List.map_cons, processQuotes, hk, hm], hget⟩
    | some key =>
      have hqts : q.timestamp ≠ none :=
        hts q (List.mem_cons_self q rest) (by simp [hk])
      obtain ⟨iso, hiso⟩ := Option.ne_none_iff_exists'.mp hqts
      have hkey : key ≠ k := by
        intro h
        exact hnm q (List.mem_cons_self q rest) (by rw [hk, h])
      obtain ⟨m, hm, hget⟩ := ih (setKey acc key (mkQuoteRecord q iso)) hrest hnmrest
      refine ⟨m, by simp only [List.map_cons, processQuotes, hk, hiso, hm], ?_⟩
      rw [hget, getProp_setKey_other _ _ _ _ (fun h => hkey h.symm)]

/-! ### Claim theorems -/

/-- C1: whenever the quote phase yields null — transport failure, non-2xx
status, JSON parse failure, non-array or empty body, or any throw inside the
phase — `fetchMarketData` returns null whatever the news phase would produce,
and the news endpoint is not called at all. -/
theorem quote_failure_fatal (env : EnvVal) (w : World)
    (h : fetchIndexQuotes w.quoteFetch = none) :
    fetchMarketData env w = none ∧
      NetCall.news ∉ (fetchMarketDataT env w).2 := by
  cases env with
  | nullish => exact ⟨rfl, by simp [fetchMarketDataT]⟩
  | obj apiKey =>
    by_cases hk : keyFalsy apiKey = true
    · simp [fetchMarketData, fetchMarketDataT, hk]
    · simp [fetchMarketData, fetchMarketDataT, hk, h]

/-- Witness for C1 at a concrete transport failure of the quote endpoint. -/
theorem quote_failure_fatal_witness :
    fetchMarketData (.obj (some "k")) ⟨.netError, .netError, "T"⟩ = none ∧
      NetCall.news ∉ (fetchMarketDataT (.obj (some "k")) ⟨.netError, .netError, "T"⟩).2 :=
  quote_failure_fatal (.obj (some "k")) ⟨.netError, .netError, "T"⟩ rfl

/-- C9: with a missing (or empty, hence falsy) API key, `fetchMarketData`
returns null and performs zero network calls. -/
theorem missing_key_absent_no_calls (apiKey : Option String) (w : World)
    (h : keyFalsy apiKey = true) :
    fetchMarketData (.obj apiKey) w = none ∧
      (fetchMarketDataT (.obj apiKey) w).2 = [] := by
  simp [fetchMarketData, fetchMarketDataT, h]

/-- Witness for C9 with an absent key. -/
theorem missing_key_absent_no_calls_witness :
    fetchMarketData (.obj none) ⟨.netError, .netError, "T"⟩ = none ∧
      (fetchMarketDataT (.obj none) ⟨.netError, .netError, "T"⟩).2 = [] :=
  missing_key_absent_no_calls none ⟨.netError, .netError, "T"⟩ rfl

/-- C5: if the quote phase succeeds and the news phase fails, the snapshot is
still present: it carries the quotes object, a null news field and the fresh
assembly timestamp. -/
theorem news_failure_nonfatal (apiKey : String) (w : World) (qs : QuotesMap)
    (hkey : apiKey ≠ "")
    (hq : fetchIndexQuotes w.quoteFetch = some qs)
    (hn : fetchMarketNews w.newsFetch = none) :
    fetchMarketData (.obj (some apiKey)) w = some ⟨qs, none, w.now⟩ := by
  simp [fetchMarketData, fetchMarketDataT, keyFalsy, hkey, hq, hn]

/-- Witness for C5: one good quote record, news transport failure. -/
theorem news_failure_nonfatal_witness :
    fetchMarketData (.obj (some "k"))
        ⟨.response true 200 (some (.arr
          [.obj ⟨"^GSPC", 5000, 10, 2, 4950, 5010, 1000000,
                 some "2023-11-14T22:13:20.000Z"⟩])), .netError, "T"⟩ =
      some ⟨[("SP500", ⟨"^GSPC", 5000, 10, 2, 4950, 5010, 1000000,
                        "2023-11-14T22:13:20.000Z"⟩)], none, "T"⟩ :=
  news_failure_nonfatal "k"
    ⟨.response true 200 (some (.arr
      [.obj ⟨"^GSPC", 5000, 10, 2, 4950, 5010, 1000000,
             some "2023-11-14T22:13:20.000Z"⟩])), .netError, "T"⟩
    [("SP500", ⟨"^GSPC", 5000, 10, 2, 4950, 5010, 1000000,
                "2023-11-14T22:13:20.000Z"⟩)]
    (by decide) (by decide) rfl

/-- C4: no invocation raises to the caller, and the result is exactly one of
three shapes: null; a snapshot built from a successful quote phase with a
null news field; or a snapshot built from a successful quote phase with the
news list the news phase produced. -/
theorem fetchMarketData_three_outcomes (env : EnvVal) (w : World) :
    fetchMarketData env w = none ∨
      (∃ qs, fetchIndexQuotes w.quoteFetch = some qs ∧
        fetchMarketNews w.newsFetch = none ∧
        fetchMarketData env w = some ⟨qs, none, w.now⟩) ∨
      (∃ qs items, fetchIndexQuotes w.quoteFetch = some qs ∧
        fetchMarketNews w.newsFetch = some items ∧
        fetchMarketData env w = some ⟨qs, some items, w.now⟩) := by
  cases env with
  | nullish => exact Or.inl rfl
  | obj apiKey =>
    by_cases hk : keyFalsy apiKey = true
    · exact Or.inl (by simp [fetchMarketData, fetchMarketDataT, hk])
    · cases hq : fetchIndexQuotes w.quoteFetch with
      | none => exact Or.inl (by simp [fetchMarketData, fetchMarketDataT, hk, hq])
      | some qs =>
        cases hn : fetchMarketNews w.newsFetch with
        | none =>
          exact Or.inr (Or.inl ⟨qs, rfl, rfl,
            by simp [fetchMarketData, fetchMarketDataT, hk, hq, hn]⟩)
        | some items =>
          exact Or.inr (Or.inr ⟨qs, items, rfl, rfl,
            by simp [fetchMarketData, fetchMarketDataT, hk, hq, hn]⟩)

/-- C2 counterexample: a non-empty quote array whose only record has the
unknown ticker FOO. The claim predicts a null normalization result and a null
overall snapshot; the code instead returns an empty quotes object (truthy in
JS), so the snapshot is present with empty indices. -/
theorem quotes_zero_match_cex :
    fetchIndexQuotes (.response true 200 (some (.arr
      [.obj ⟨"FOO", 1, 2, 3, 4, 5, 6, some "TS"⟩]))) = some [] ∧
    fetchMarketData (.obj (some "k"))
        ⟨.response true 200 (some (.arr [.obj ⟨"FOO", 1, 2, 3, 4, 5, 6, some "TS"⟩])),
         .netError, "NOW"⟩ =
      some ⟨[], none, "NOW"⟩ := by
  exact ⟨by decide, by decide⟩

/-- C2 (amended): an empty array and a non-array body make the quote
normalization null; but a non-empty array in which no record matches a known
ticker yields the empty quotes object, not null, and the overall snapshot is
then present with an empty indices mapping. -/
theorem quotes_zero_match_empty_map (st : Nat) (apiKey now : String)
    (nf : FetchOutcome RawArticle) (arts : List RawQuote)
    (hkey : apiKey ≠ "")
    (hne : arts ≠ [])
    (hunm : ∀ q ∈ arts, getKeyByValue INDICES q.symbol = none) :
    fetchIndexQuotes (.response true st (some (.arr []))) = none ∧
    fetchIndexQuotes (.response true st (some .nonArray)) = none ∧
    fetchIndexQuotes (.response true st (some (.arr (arts.map RawElem.obj)))) =
      some [] ∧
    fetchMarketData (.obj (some apiKey))
        ⟨.response true st (some (.arr (arts.map RawElem.obj))), nf, now⟩ =
      some ⟨[], fetchMarketNews nf, now⟩ := by
  have hlen : arts.length ≠ 0 := fun h => hne (List.eq_nil_of_length_eq_zero h)
  have h3 : fetchIndexQuotes
      (.response true st (some (.arr (arts.map RawElem.obj)))) = some [] := by
    simp [fetchIndexQuotes, fetchIndexQuotesBody, List.length_map, hlen,
      processQuotes_unmatched arts [] hunm, Except.map]
  refine ⟨rfl, rfl, h3, ?_⟩
  simp [fetchMarketData, fetchMarketDataT, keyFalsy, hkey, h3]

/-- Witness for the amended C2 at one unmatched record. -/
theorem quotes_zero_match_witness :
    fetchIndexQuotes (.response true 7 (some (.arr []))) = none ∧
    fetchIndexQuotes (.response true 7 (some .nonArray)) = none ∧
    fetchIndexQuotes (.response true 7 (some (.arr
      ([(⟨"BAR", 0, 0, 0, 0, 0, 0, none⟩ : RawQuote)].map RawElem.obj)))) =
      some [] ∧
    fetchMarketData (.obj (some "key"))
        ⟨.response true 7 (some (.arr
          ([(⟨"BAR", 0, 0, 0, 0, 0, 0, none⟩ : RawQuote)].map RawElem.obj))),
         .netError, "NOW"⟩ =
      some ⟨[], fetchMarketNews .netError, "NOW"⟩ :=
  quotes_zero_match_empty_map 7 "key" "NOW" .netError
    [⟨"BAR", 0, 0, 0, 0, 0, 0, none⟩] (by decide) (by decide) (by decide)

/-- C3 counterexample: the first record is a fully valid matched S&P 500
quote; the second is a matched NASDAQ record whose timestamp does not
convert. The claim predicts a mapping still containing the S&P 500 entry; the
code answers null because the conversion error aborts the whole loop. -/
theorem bad_timestamp_cex :
    fetchIndexQuotes (.response true 200 (some (.arr
      [.obj ⟨"^GSPC", 5000, 10, 2, 4950, 5010, 1000000,
             some "2023-11-14T22:13:20.000Z"⟩,
       .obj ⟨"^IXIC", 15000, 5, 1, 14900, 15100, 500, none⟩]))) = none := by
  decide

/-- C3 (amended): if any record of the array is a matched object whose
timestamp fails to convert, the thrown conversion error escapes the
per-record loop and is caught only at the phase boundary: the whole quote
normalization returns null, dropping every other record with it. -/
theorem bad_timestamp_aborts (st : Nat) (data : List (RawElem RawQuote))
    (h : ∃ e ∈ data, badMatched e) :
    fetchIndexQuotes (.response true st (some (.arr data))) = none := by
  have hne : data.length ≠ 0 := by
    obtain ⟨e, he, _⟩ := h
    intro h0
    rw [List.eq_nil_of_length_eq_zero h0] at he
    exact absurd he (List.not_mem_nil e)
  obtain ⟨err, herr⟩ := processQuotes_error_of_bad data [] h
  simp [fetchIndexQuotes, fetchIndexQuotesBody, hne, herr, Except.map]

/-- Witness for the amended C3 at a concrete bad-timestamp record. -/
theorem bad_timestamp_aborts_witness :
    fetchIndexQuotes (.response true 0 (some (.arr
      [.obj ⟨"^VIX", 13, 1, 1, 12, 14, 0, none⟩]))) = none :=
  bad_timestamp_aborts 0 [.obj ⟨"^VIX", 13, 1, 1, 12, 14, 0, none⟩] (by decide)

set_option maxRecDepth 4096 in
/-- C6 counterexample: the text "hi" has far fewer than 200 characters, yet
the summary still carries the truncation marker, contradicting the claim that
no marker is appended for texts of at most 200 characters. -/
theorem short_text_marker_cex :
    (normalizeArticle ⟨"t", "s", "d", "u", some "hi"⟩).summary = "hi..." ∧
    ("hi" : String).length ≤ 200 ∧ "hi..." ≠ "hi" := by
  exact ⟨by decide, by decide, by decide⟩

/-- C6 (amended): for every truthy (non-empty) text the summary is the first
200 characters followed by the truncation marker, regardless of the text
length; an absent text and the (falsy) empty text both yield an empty
summary with no marker. -/
theorem summary_marker_on_truthy_text (t : String) (a b c : RawArticle)
    (ht : t ≠ "") (ha : a.text = some t) (hb : b.text = none)
    (hc : c.text = some "") :
    (normalizeArticle a).summary = t.take 200 ++ "..." ∧
    (normalizeArticle b).summary = "" ∧
    (normalizeArticle c).summary = "" := by
  refine ⟨?_, ?_, ?_⟩ <;> simp [normalizeArticle, ha, hb, hc, ht]

/-- Witness for the amended C6 on three concrete articles. -/
theorem summary_marker_witness :
    (normalizeArticle ⟨"t1", "s1", "d1", "u1", some "up"⟩).summary =
      ("up" : String).take 200 ++ "..." ∧
    (normalizeArticle ⟨"t2", "s2", "d2", "u2", none⟩).summary = "" ∧
    (normalizeArticle ⟨"t3", "s3", "d3", "u3", some ""⟩).summary = "" :=
  summary_marker_on_truthy_text "up" ⟨"t1", "s1", "d1", "u1", some "up"⟩
    ⟨"t2", "s2", "d2", "u2", none⟩ ⟨"t3", "s3", "d3", "u3", some ""⟩
    (by decide) rfl rfl rfl

/-- C7: on an array of article objects, the news normalization returns the
first five articles (all of them when there are five or fewer) normalized in
the provider-given order; with more than five articles the result has exactly
five elements. -/
theorem news_take_five_in_order (st : Nat) (arts : List RawArticle)
    (hne : arts ≠ []) :
    fetchMarketNews (.response true st (some (.arr (arts.map RawElem.obj)))) =
      some ((arts.take 5).map normalizeArticle) ∧
    (5 < arts.length → ((arts.take 5).map normalizeArticle).length = 5) ∧
    (arts.length ≤ 5 →
      (arts.take 5).map normalizeArticle = arts.map normalizeArticle) := by
  have hlen : arts.length ≠ 0 := fun h => hne (List.eq_nil_of_length_eq_zero h)
  have htake : (arts.map RawElem.obj).take 5 = (arts.take 5).map RawElem.obj := by
    rw [List.map_take]
  have hbody : fetchMarketNewsBody
      (.response true st (some (.arr (arts.map RawElem.obj)))) =
      .ok (some ((arts.take 5).map normalizeArticle)) := by
    simp only [fetchMarketNewsBody, Bool.not_true, Bool.false_eq_true,
      if_false, List.length_map]
    rw [if_neg hlen, htake, processArticles_objs]
    rfl
  refine ⟨?_, ?_, ?_⟩
  · simp only [fetchMarketNews, hbody]
  · intro h5
    simp only [List.length_map, List.length_take]
    omega
  · intro h5
    rw [List.take_of_length_le h5]

/-- Witness for C7 on six concrete articles: the sixth is dropped. -/
theorem news_take_five_witness :
    fetchMarketNews (.response true 200 (some (.arr
      (([⟨"a1", "s", "d", "u", none⟩, ⟨"a2", "s", "d", "u", none⟩,
         ⟨"a3", "s", "d", "u", none⟩, ⟨"a4", "s", "d", "u", none⟩,
         ⟨"a5", "s", "d", "u", none⟩, ⟨"a6", "s", "d", "u", none⟩] :
        List RawArticle).map RawElem.obj)))) =
      some ((([⟨"a1", "s", "d", "u", none⟩, ⟨"a2", "s", "d", "u", none⟩,
               ⟨"a3", "s", "d", "u", none⟩, ⟨"a4", "s", "d", "u", none⟩,
               ⟨"a5", "s", "d", "u", none⟩, ⟨"a6", "s", "d", "u", none⟩] :
              List RawArticle).take 5).map normalizeArticle) ∧
    (5 < ([⟨"a1", "s", "d", "u", none⟩, ⟨"a2", "s", "d", "u", none⟩,
           ⟨"a3", "s", "d", "u", none⟩, ⟨"a4", "s", "d", "u", none⟩,
           ⟨"a5", "s", "d", "u", none⟩, ⟨"a6", "s", "d", "u", none⟩] :
          List RawArticle).length →
      ((([⟨"a1", "s", "d", "u", none⟩, ⟨"a2", "s", "d", "u", none⟩,
          ⟨"a3", "s", "d", "u", none⟩, ⟨"a4", "s", "d", "u", none⟩,
          ⟨"a5", "s", "d", "u", none⟩, ⟨"a6", "s", "d", "u", none⟩] :
         List RawArticle).take 5).map normalizeArticle).length = 5) ∧
    (([⟨"a1", "s", "d", "u", none⟩, ⟨"a2", "s", "d", "u", none⟩,
       ⟨"a3", "s", "d", "u", none⟩, ⟨"a4", "s", "d", "u", none⟩,
       ⟨"a5", "s", "d", "u", none⟩, ⟨"a6", "s", "d", "u", none⟩] :
      List RawArticle).length ≤ 5 →
      (([⟨"a1", "s", "d", "u", none⟩, ⟨"a2", "s", "d", "u", none⟩,
         ⟨"a3", "s", "d", "u", none⟩, ⟨"a4", "s", "d", "u", none⟩,
         ⟨"a5", "s", "d", "u", none⟩, ⟨"a6", "s", "d", "u", none⟩] :
        List RawArticle).take 5).map normalizeArticle =
      ([⟨"a1", "s", "d", "u", none⟩, ⟨"a2", "s", "d", "u", none⟩,
        ⟨"a3", "s", "d", "u", none⟩, ⟨"a4", "s", "d", "u", none⟩,
        ⟨"a5", "s", "d", "u", none⟩, ⟨"a6", "s", "d", "u", none⟩] :
       List RawArticle).map normalizeArticle) :=
  news_take_five_in_order 200
    [⟨"a1", "s", "d", "u", none⟩, ⟨"a2", "s", "d", "u", none⟩,
     ⟨"a3", "s", "d", "u", none⟩, ⟨"a4", "s", "d", "u", none⟩,
     ⟨"a5", "s", "d", "u", none⟩, ⟨"a6", "s", "d", "u", none⟩]
    (by decide)

/-- C8 counterexample: the array holds a fully valid matched S&P 500 record
and a matched treasury-yield record whose timestamp does not convert. The
claim predicts an output mapping whose keys are exactly SP500 and US10Y; the
code returns null, so no such mapping exists. -/
theorem quotes_key_set_cex :
    fetchIndexQuotes (.response true 200 (some (.arr
      [.obj ⟨"^GSPC", 4000, 1, 1, 3990, 4010, 100, some "2024-01-02T00:00:00.000Z"⟩,
       .obj ⟨"^TNX", 4, 0, 0, 4, 5, 0, none⟩]))) = none := by
  decide

/-- C8 (amended): on an array of record objects in which at least one ticker
matches and every matched record has a convertible timestamp, the quote
normalization succeeds and the key set of the resulting mapping is exactly
the set of identifiers matched by some record; unmatched records are dropped
without error. -/
theorem quotes_key_set_exact (st : Nat) (arts : List RawQuote)
    (hts : ∀ q ∈ arts, getKeyByValue INDICES q.symbol ≠ none → q.timestamp ≠ none)
    (hmatch : ∃ q ∈ arts, getKeyByValue INDICES q.symbol ≠ none) :
    ∃ m, fetchIndexQuotes
        (.response true st (some (.arr (arts.map RawElem.obj)))) = some m ∧
      ∀ j, (j ∈ m.map Prod.fst ↔
        ∃ q ∈ arts, getKeyByValue INDICES q.symbol = some j) := by
  have hne : arts.length ≠ 0 := by
    obtain ⟨q, hq, _⟩ := hmatch
    intro h0
    rw [List.eq_nil_of_length_eq_zero h0] at hq
    exact absurd hq (List.not_mem_nil q)
  obtain ⟨m, hm, hkeys⟩ := processQuotes_objs_keys arts [] hts
  refine ⟨m, ?_, fun j => ?_⟩
  · simp [fetchIndexQuotes, fetchIndexQuotesBody, List.length_map, hne, hm,
      Except.map]
  · rw [hkeys j]
    simp

/-- Witness for the amended C8: one matched record, one unmatched record. -/
theorem quotes_key_set_witness :
    ∃ m, fetchIndexQuotes (.response true 200 (some (.arr
        (([⟨"^DJI", 39000, 3, 1, 38900, 39100, 900, some "D"⟩,
           ⟨"ZZZ", 0, 0, 0, 0, 0, 0, none⟩] : List RawQuote).map
          RawElem.obj)))) = some m ∧
      ∀ j, (j ∈ m.map Prod.fst ↔
        ∃ q ∈ ([⟨"^DJI", 39000, 3, 1, 38900, 39100, 900, some "D"⟩,
                ⟨"ZZZ", 0, 0, 0, 0, 0, 0, none⟩] : List RawQuote),
          getKeyByValue INDICES q.symbol = some j) :=
  quotes_key_set_exact 200
    [⟨"^DJI", 39000, 3, 1, 38900, 39100, 900, some "D"⟩,
     ⟨"ZZZ", 0, 0, 0, 0, 0, 0, none⟩]
    (by decide) (by decide)

/-- C10 counterexample: two records share the matching ticker GSPC and the
later one has a non-convertible timestamp. The claim predicts a mapping whose
SP500 entry is built from that last record; the code instead returns null (a
RangeError occurred and aborted the phase). -/
theorem duplicate_ticker_cex :
    fetchIndexQuotes (.response true 200 (some (.arr
      [.obj ⟨"^GSPC", 1, 1, 1, 1, 1, 1, some "A"⟩,
       .obj ⟨"^GSPC", 2, 2, 2, 2, 2, 2, none⟩]))) = none := by
  decide

/-- C10 (amended): on an array of record objects whose matched timestamps all
convert, when two or more records carry the same matching ticker the entry
stored under the matched identifier is built from the last such record in
input order — later records overwrite earlier ones, without error or merge.
The record list is presented as pre, the last matching record q, and a tail
with no further match for that identifier. -/
theorem duplicate_ticker_last_wins (st : Nat) (pre post : List RawQuote)
    (q : RawQuote) (k iso : String)
    (hts : ∀ r ∈ pre ++ q :: post,
      getKeyByValue INDICES r.symbol ≠ none → r.timestamp ≠ none)
    (hq : getKeyByValue INDICES q.symbol = some k)
    (hqts : q.timestamp = some iso)
    (hdup : ∃ r ∈ pre, getKeyByValue INDICES r.symbol = some k)
    (hpost : ∀ r ∈ post, getKeyByValue INDICES r.symbol ≠ some k) :
    ∃ m, fetchIndexQuotes
        (.response true st (some (.arr ((pre ++ q :: post).map RawElem.obj)))) =
      some m ∧ getProp m k = some (mkQuoteRecord q iso) := by
  have htspre : ∀ r ∈ pre, getKeyByValue INDICES r.symbol ≠ none →
      r.timestamp ≠ none :=
    fun r hr => hts r (List.mem_append_left _ hr)
  have htspost : ∀ r ∈ post, getKeyByValue INDICES r.symbol ≠ none →
      r.timestamp ≠ none :=
    fun r hr => hts r (List.mem_append_right _ (List.mem_cons_of_mem q hr))
  obtain ⟨m1, hm1, _⟩ := processQuotes_objs_keys pre [] htspre
  obtain ⟨m2, hm2, hget2⟩ := processQuotes_objs_nomatch post
    (setKey m1 k (mkQuoteRecord q iso)) k htspost hpost
  have hrun : processQuotes ((pre ++ q :: post).map RawElem.obj) [] = .ok m2 := by
    rw [List.map_append, processQuotes_append, hm1]
    simp only [List.map_cons, processQuotes, hq, hqts]
    exact hm2
  have hlen : (pre ++ q :: post).length ≠ 0 := by simp
  have hbody : fetchIndexQuotesBody
      (.response true st (some (.arr ((pre ++ q :: post).map RawElem.obj)))) =
      .ok (some m2) := by
    simp only [fetchIndexQuotesBody, Bool.not_true, Bool.false_eq_true,
      if_false, List.length_map]
    rw [if_neg hlen, hrun]
    rfl
  refine ⟨m2, ?_, ?_⟩
  · simp only [fetchIndexQuotes, hbody]
  · rw [hget2, getProp_setKey_self]

/-- Witness for the amended C10: two GSPC records followed by an unmatched
record; the stored SP500 entry is built from the second GSPC record. -/
theorem duplicate_ticker_witness :
    ∃ m, fetchIndexQuotes (.response true 9 (some (.arr
        ((([⟨"^GSPC", 1, 1, 1, 1, 1, 1, some "A"⟩] : List RawQuote) ++
          ⟨"^GSPC", 2, 2, 2, 2, 2, 2, some "B"⟩ ::
          ([⟨"QQQ", 0, 0, 0, 0, 0, 0, none⟩] : List RawQuote)).map
          RawElem.obj)))) =
      some m ∧
      getProp m "SP500" =
        some (mkQuoteRecord ⟨"^GSPC", 2, 2, 2, 2, 2, 2, some "B"⟩ "B") :=
  duplicate_ticker_last_wins 9
    [⟨"^GSPC", 1, 1, 1, 1, 1, 1, some "A"⟩]
    [⟨"QQQ", 0, 0, 0, 0, 0, 0, none⟩]
    ⟨"^GSPC", 2, 2, 2, 2, 2, 2, some "B"⟩ "SP500" "B"
    (by decide) (by decide) rfl (by decide) (by decide)
